import Mathlib

/-!
# The ESLint configuration module `eslint.config.mjs`

The module builds one value, `eslintConfig`, by handing an eslintrc-style object
(`extends` and `rules`) to `compat.config` of a `FlatCompat` instance and spreading the
returned array into a fresh array literal.

`FlatCompat` (package `@eslint/eslintrc`) and `js.configs.recommended` (package `@eslint/js`)
are imports of the module, not part of it; they enter the development as the fields of an
environment `Env`.  Calls into the imported package may throw, so they return `Except`.
-/

namespace EslintConfig

/-! ## Data -/

/-- One rule setting as the source writes it: an array literal of strings whose first element
is the severity and whose remaining elements are the options of the rule. -/
abbrev RuleSetting := List String

/-- The object literal passed to `compat.config`: the `extends` array and the `rules` object,
the latter as its properties in source order. -/
structure EslintrcConfig where
  «extends» : List String
  rules : List (String × RuleSetting)
  deriving DecidableEq, Repr

/-- The object literal passed to `new FlatCompat(...)`. -/
structure FlatCompatOptions (ε : Type) where
  baseDirectory : String
  recommendedConfig : ε

/-- An instance of `FlatCompat`, seen through the one method the module calls. -/
structure Compat (ε : Type) where
  config : EslintrcConfig → Except String (List ε)

/-- What the module imports and reads from its surroundings: `import.meta.dirname`,
`js.configs.recommended` and the constructor of `FlatCompat`.  The type `ε` is the type of
flat configuration entries, which the module never inspects. -/
structure Env (ε : Type) where
  dirname : String
  recommended : ε
  FlatCompat : FlatCompatOptions ε → Except String (Compat ε)

/-! ## The module -/

/-- The `rules` object of lines 12 to 18. -/
def rules : List (String × RuleSetting) :=
  [ ("semi", ["error"]),
    ("quotes", ["error", "double"]),
    ("prefer-arrow-callback", ["error"]),
    ("prefer-template", ["error"]),
    ("no-unused-vars", ["warn"]) ]

/-- The argument of `compat.config`, lines 10 to 19. -/
def eslintrcConfig : EslintrcConfig :=
  { «extends» := ["eslint:recommended", "next", "prettier"],
    rules := rules }

/-- Lines 4 to 7: `const compat = new FlatCompat({ baseDirectory, recommendedConfig })`. -/
def compat {ε : Type} (env : Env ε) : Except String (Compat ε) :=
  env.FlatCompat { baseDirectory := env.dirname, recommendedConfig := env.recommended }

/-- The call `compat.config({ ... })` of lines 10 to 19. -/
def compatConfigCall {ε : Type} (env : Env ε) : Except String (List ε) := do
  let c ← compat env
  c.config eslintrcConfig

/-- An array literal consisting of one spread element, `[...xs]`: start from the empty array
and append the elements that iterating `xs` yields, one at a time. -/
def spread {ε : Type} (xs : List ε) : List ε :=
  xs.foldl (fun acc x => acc ++ [x]) []

/-- Lines 9 to 20: `const eslintConfig = [...compat.config({ ... })]`, the default export. -/
def eslintConfig {ε : Type} (env : Env ε) : Except String (List ε) := do
  let xs ← compatConfigCall env
  pure (spread xs)

/-! ## Reading a rules object -/

/-- Property lookup in a rules object. -/
def ruleSetting (rs : List (String × RuleSetting)) (key : String) : Option RuleSetting :=
  rs.lookup key

/-- The severity of a rule setting: the first element of its array. -/
def severity (s : RuleSetting) : Option String :=
  s.head?

/-- The options of a rule setting: the elements after the severity. -/
def ruleOptions (s : RuleSetting) : List String :=
  s.drop 1

/-- Whether a rule setting has a severity, together with its options. -/
def settingShape (s : RuleSetting) : Bool × List String :=
  ((severity s).isSome, ruleOptions s)

/-- The keys of a rules object, in source order. -/
def ruleKeys (rs : List (String × RuleSetting)) : List String :=
  rs.map Prod.fst

/-! ## Helper lemmas -/

theorem foldl_append_singleton {ε : Type} (xs init : List ε) :
    xs.foldl (fun acc x => acc ++ [x]) init = init ++ xs := by
  induction xs generalizing init with
  | nil => simp
  | cons x xs ih => simp [ih]

theorem spread_eq {ε : Type} (xs : List ε) : spread xs = xs := by
  simp [spread, foldl_append_singleton]

theorem ruleSetting_isSome_iff (rs : List (String × RuleSetting)) (key : String) :
    (ruleSetting rs key).isSome = true ↔ key ∈ ruleKeys rs := by
  induction rs with
  | nil => simp [ruleSetting, ruleKeys]
  | cons r rs ih =>
    obtain ⟨k, v⟩ := r
    by_cases hk : key = k
    · subst hk
      simp [ruleSetting, ruleKeys, List.lookup]
    · have hb : (key == k) = false := by simpa using hk
      simp only [ruleSetting, ruleKeys, List.lookup, hb, List.map_cons, List.mem_cons] at ih ⊢
      rw [ih]
      simp [hk]

/-! ## Claims -/

/-- C1: in the rules object passed to `compat.config`, the severity (first element of the
array) is "error" for `semi`, `quotes`, `prefer-arrow-callback` and `prefer-template`, and
"warn" for `no-unused-vars`. -/
theorem rules_severity :
    (ruleSetting eslintrcConfig.rules "semi").bind severity = some "error" ∧
    (ruleSetting eslintrcConfig.rules "quotes").bind severity = some "error" ∧
    (ruleSetting eslintrcConfig.rules "prefer-arrow-callback").bind severity = some "error" ∧
    (ruleSetting eslintrcConfig.rules "prefer-template").bind severity = some "error" ∧
    (ruleSetting eslintrcConfig.rules "no-unused-vars").bind severity = some "warn" := by
  decide

/-- C2: the `quotes` setting carries exactly one option, "double", after its severity, and
each of `semi`, `prefer-arrow-callback`, `prefer-template` and `no-unused-vars` carries a
severity and no option. -/
theorem rules_options :
    (ruleSetting eslintrcConfig.rules "quotes").map settingShape = some (true, ["double"]) ∧
    (ruleSetting eslintrcConfig.rules "semi").map settingShape = some (true, []) ∧
    (ruleSetting eslintrcConfig.rules "prefer-arrow-callback").map settingShape
      = some (true, []) ∧
    (ruleSetting eslintrcConfig.rules "prefer-template").map settingShape = some (true, []) ∧
    (ruleSetting eslintrcConfig.rules "no-unused-vars").map settingShape = some (true, []) := by
  decide

/-- C3: the inherited bundles are exactly 'eslint:recommended', 'next' and 'prettier', in this
order, and no other bundle is inherited. -/
theorem extends_exact :
    eslintrcConfig.«extends» = ["eslint:recommended", "next", "prettier"] ∧
    eslintrcConfig.«extends».length = 3 ∧
    (∀ b, b ∈ eslintrcConfig.«extends» ↔
      b = "eslint:recommended" ∨ b = "next" ∨ b = "prettier") := by
  refine ⟨rfl, rfl, ?_⟩
  intro b
  simp [eslintrcConfig]

/-- C4: the keys of the rules object are exactly `semi`, `quotes`, `prefer-arrow-callback`,
`prefer-template` and `no-unused-vars`, five distinct keys, and a key has a setting exactly
when it is one of these. -/
theorem rule_keys_exact :
    ruleKeys eslintrcConfig.rules =
      ["semi", "quotes", "prefer-arrow-callback", "prefer-template", "no-unused-vars"] ∧
    (ruleKeys eslintrcConfig.rules).Nodup ∧
    (ruleKeys eslintrcConfig.rules).length = 5 ∧
    (∀ key, (ruleSetting eslintrcConfig.rules key).isSome = true ↔
      key = "semi" ∨ key = "quotes" ∨ key = "prefer-arrow-callback" ∨
        key = "prefer-template" ∨ key = "no-unused-vars") := by
  refine ⟨rfl, by decide, rfl, ?_⟩
  intro key
  rw [ruleSetting_isSome_iff]
  simp [ruleKeys, eslintrcConfig, rules]

/-- C10: the exported array holds exactly the entries the single `compat.config` call returns,
in the same order and number: the module prepends, appends, drops and reorders nothing, and
when the call throws the module throws the same error. -/
theorem eslintConfig_eq_compatConfigCall {ε : Type} (env : Env ε) :
    eslintConfig env = compatConfigCall env := by
  unfold eslintConfig
  cases compatConfigCall env with
  | error e => rfl
  | ok xs => simp [bind, Except.bind, pure, Except.pure, spread_eq]

end EslintConfig
